import Mathlib

set_option maxHeartbeats 1000000

/-! Shallow embedding of the n-armed bandit epsilon-greedy simulation
    (src/main.rs).  Floating point values are modelled as rationals, and
    every call to the random number generator is modelled as an explicit
    input: a uniform draw `x` in the unit interval, an integer draw `k`
    for the range sampling used by the tie break, and a tape of
    standard-normal draws for the task (a normal sample with mean `m` and
    unit variance is `m + z` with `z` standard normal, exactly as the
    rand crate computes it).  A Rust panic (failed assert or an
    out-of-bounds index) is modelled as `none`. -/

/-- State of the bandit: struct EpsilonGreedyBandit of src/main.rs
    (arm count `n`, per-action reward histories, greediness parameter). -/
structure EpsilonGreedyBandit where
  n : Nat
  past_rewards : List (List ℚ)
  epsilon : ℚ
  deriving DecidableEq

/-- fn EpsilonGreedyBandit::new: pushes `n` empty reward vectors. -/
def EpsilonGreedyBandit.new (n : Nat) (epsilon : ℚ) : EpsilonGreedyBandit :=
  { n := n, past_rewards := List.replicate n [], epsilon := epsilon }

/-- fn calculate_estimate: asserts the action is in range (a failed assert
    is `none`), returns 0.0 on an empty history, otherwise the sum of the
    recorded rewards divided by their number. -/
def EpsilonGreedyBandit.calculate_estimate (b : EpsilonGreedyBandit) (action : Nat) : Option ℚ :=
  if action < b.past_rewards.length then
    let hist := b.past_rewards.getD action []
    if hist.length = 0 then some 0
    else some (hist.sum / (hist.length : ℚ))
  else none

/-- fn receive_reward: pushes the reward onto past_rewards[action]; an
    out-of-bounds index panics (`none`). -/
def EpsilonGreedyBandit.receive_reward (b : EpsilonGreedyBandit) (reward : ℚ) (action : Nat) : Option EpsilonGreedyBandit :=
  if action < b.past_rewards.length then
    some { b with past_rewards := b.past_rewards.set action (b.past_rewards.getD action [] ++ [reward]) }
  else none

/-- Total in-range value of calculate_estimate, used to state theorems. -/
def EpsilonGreedyBandit.estimateValD (b : EpsilonGreedyBandit) (action : Nat) : ℚ :=
  let hist := b.past_rewards.getD action []
  if hist.length = 0 then 0 else hist.sum / (hist.length : ℚ)

/-- The estimates vector built at the start of choose_action: the loop
    pushing calculate_estimate(i) for i in 0..n, propagating a panic. -/
def collectEstimates (b : EpsilonGreedyBandit) : List Nat → Option (List ℚ)
  | [] => some []
  | i :: is =>
    match b.calculate_estimate i, collectEstimates b is with
    | some e, some rest => some (e :: rest)
    | _, _ => none

/-- Loop body of the greedy-branch scan of choose_action (lines 62-70):
    a strictly larger estimate resets the candidate list, a tie appends. -/
def maxScanStep (es : List ℚ) (st : List Nat × ℚ) (j : Nat) : List Nat × ℚ :=
  if st.2 < es.getD j 0 then ([j], es.getD j 0)
  else if es.getD j 0 = st.2 then (st.1 ++ [j], st.2)
  else st

/-- Runs maxScanStep on indices j, j+1, ..., j+m-1. -/
def maxScanGo (es : List ℚ) : Nat → Nat → List Nat × ℚ → List Nat × ℚ
  | 0, _, st => st
  | m + 1, j, st => maxScanGo es m (j + 1) (maxScanStep es st j)

/-- The greedy-branch scan: starts with max_actions = [0] and
    max_value = estimates[0], loops over i in 1..n. -/
def maxScan (es : List ℚ) : List Nat × ℚ :=
  maxScanGo es (es.length - 1) 1 ([0], es.getD 0 0)

/-- Loop body of the explore-branch scan (lines 79-89): state is
    (non_max_actions, max_actions, max_value); a strictly larger estimate
    drains max_actions into non_max_actions and restarts max_actions. -/
def partScanStep (es : List ℚ) (st : List Nat × List Nat × ℚ) (j : Nat) : List Nat × List Nat × ℚ :=
  if st.2.2 < es.getD j 0 then (st.1 ++ st.2.1, [j], es.getD j 0)
  else if es.getD j 0 = st.2.2 then (st.1, st.2.1 ++ [j], st.2.2)
  else (st.1 ++ [j], st.2.1, st.2.2)

/-- Runs partScanStep on indices j, j+1, ..., j+m-1. -/
def partScanGo (es : List ℚ) : Nat → Nat → List Nat × List Nat × ℚ → List Nat × List Nat × ℚ
  | 0, _, st => st
  | m + 1, j, st => partScanGo es m (j + 1) (partScanStep es st j)

/-- The explore-branch scan: non_max_actions starts empty, max_actions
    starts [0] with max_value = estimates[0], loop over i in 1..n. -/
def partScan (es : List ℚ) : List Nat × List Nat × ℚ :=
  partScanGo es (es.length - 1) 1 ([], [0], es.getD 0 0)

/-- fn choose_action.  `x` is the uniform draw on the unit interval and
    `k` the integer draw of gen_range (gen_range(0, len) is modelled as
    k % len; on every path the code reaches, len is positive).  The assert
    n > 0 is modelled as `none` for n = 0, and a panic inside
    calculate_estimate propagates. -/
def EpsilonGreedyBandit.choose_action (b : EpsilonGreedyBandit) (x : ℚ) (k : Nat) : Option Nat :=
  if b.n = 0 then none
  else
    match collectEstimates b (List.range b.n) with
    | none => none
    | some estimates =>
      if b.epsilon < x then
        let res := maxScan estimates
        some (res.1.getD (k % res.1.length) 0)
      else
        let res := partScan estimates
        if 0 < res.1.length then some (res.1.getD (k % res.1.length) 0)
        else some (res.2.1.getD (k % res.2.1.length) 0)

/-- The random draws consumed by one run: standard-normal draws for the
    true values (qDraw, indexed by arm), standard-normal draws for the
    per-play reward noise (zDraw, indexed by play and arm), and per-play
    uniform and integer draws for choose_action. -/
structure Tape where
  qDraw : Nat → ℚ
  zDraw : Nat → Nat → ℚ
  xDraw : Nat → ℚ
  kDraw : Nat → Nat

/-- struct BanditTask: holds only the arm count. -/
structure BanditTask where
  n : Nat
  deriving DecidableEq

/-- fn BanditTask::new. -/
def BanditTask.new (n : Nat) : BanditTask := { n := n }

/-- The play loop of run_task: `m` plays remain, `t` is the current play
    index, `acc` the rewards so far.  Each play draws a reward candidate
    q_star[j] + z for every arm j, asks the bandit for an action, delivers
    the chosen candidate to the output and feeds the same value back via
    receive_reward (a panic anywhere is `none`). -/
def run_task_aux (taskN : Nat) (q_star : List ℚ) (tape : Tape) :
    Nat → Nat → EpsilonGreedyBandit → List ℚ → Option (List ℚ × EpsilonGreedyBandit)
  | 0, _, b, acc => some (acc, b)
  | m + 1, t, b, acc =>
    let reward := (List.range taskN).map (fun j => q_star.getD j 0 + tape.zDraw t j)
    match b.choose_action (tape.xDraw t) (tape.kDraw t) with
    | none => none
    | some action =>
      match reward.get? action with
      | none => none
      | some r =>
        match b.receive_reward r action with
        | none => none
        | some b2 => run_task_aux taskN q_star tape m (t + 1) b2 (acc ++ [r])

/-- fn run_task: first draws q_star (one standard-normal draw per arm of
    the task), then runs the play loop; returns the rewards in play order
    together with the final bandit state. -/
def BanditTask.run_task (task : BanditTask) (b : EpsilonGreedyBandit) (num_plays : Nat) (tape : Tape) : Option (List ℚ × EpsilonGreedyBandit) :=
  let q_star := (List.range task.n).map tape.qDraw
  run_task_aux task.n q_star tape num_plays 0 b []

/-- Replays a list of (action, reward) pairs through the history update of
    receive_reward, in order. -/
def recordFold (pr : List (List ℚ)) : List (Nat × ℚ) → List (List ℚ)
  | [] => pr
  | (a, r) :: rest => recordFold (pr.set a (pr.getD a [] ++ [r])) rest

/-- The aggregation of fn main (lines 182-200): element-wise accumulation
    of each task's reward sequence into avg_rewards, then division of
    every entry by num_plays. -/
def mainAggregate (taskRewards : List (List ℚ)) (num_plays : Nat) : List ℚ :=
  let sums := taskRewards.foldl
    (fun acc rs => (List.range num_plays).map (fun i => acc.getD i 0 + rs.getD i 0))
    (List.replicate num_plays (0 : ℚ))
  (List.range num_plays).map (fun i => sums.getD i 0 / (num_plays : ℚ))

/-- Maximum of the first j entries of es (of entry 0 when j = 0). -/
def maxUpTo (es : List ℚ) : Nat → ℚ
  | 0 => es.getD 0 0
  | j + 1 => max (maxUpTo es j) (es.getD j 0)

/-- The estimate vector of the bandit, as the spec describes it. -/
def estimateVec (b : EpsilonGreedyBandit) : List ℚ :=
  (List.range b.n).map b.estimateValD

/-- The maximum estimate value of the bandit. -/
def maxEstimate (b : EpsilonGreedyBandit) : ℚ :=
  maxUpTo (estimateVec b) b.n

/-- The greedy set: all actions whose estimate equals the maximum
    estimate, by exact comparison. -/
def greedySet (b : EpsilonGreedyBandit) : List Nat :=
  (List.range b.n).filter (fun i => b.estimateValD i == maxEstimate b)

/-- The non-greedy set: all other actions. -/
def nonGreedySet (b : EpsilonGreedyBandit) : List Nat :=
  (List.range b.n).filter (fun i => !(b.estimateValD i == maxEstimate b))

/-! Basic lemmas about the embedding. -/

lemma getD_map_range (f : Nat → ℚ) {n i : Nat} (h : i < n) :
    ((List.range n).map f).getD i 0 = f i := by
  rw [List.getD_eq_getElem?_getD, List.getElem?_map, List.getElem?_range h]
  rfl

lemma calculate_estimate_in_range (b : EpsilonGreedyBandit) {i : Nat}
    (h : i < b.past_rewards.length) :
    b.calculate_estimate i = some (b.estimateValD i) := by
  simp only [EpsilonGreedyBandit.calculate_estimate, EpsilonGreedyBandit.estimateValD, if_pos h]
  split <;> rfl

lemma calculate_estimate_out_of_range (b : EpsilonGreedyBandit) {i : Nat}
    (h : b.past_rewards.length ≤ i) :
    b.calculate_estimate i = none := by
  simp only [EpsilonGreedyBandit.calculate_estimate]
  rw [if_neg (by omega)]

lemma collectEstimates_eq (b : EpsilonGreedyBandit) :
    ∀ (l : List Nat), (∀ i ∈ l, i < b.past_rewards.length) →
      collectEstimates b l = some (l.map b.estimateValD)
  | [], _ => rfl
  | i :: is, h => by
    have hi : i < b.past_rewards.length := h i (List.mem_cons_self i is)
    have hrest := collectEstimates_eq b is (fun j hj => h j (List.mem_cons_of_mem i hj))
    simp only [collectEstimates, calculate_estimate_in_range b hi, hrest, List.map_cons]

lemma getD_le_maxUpTo (es : List ℚ) : ∀ {j i : Nat}, i < j → es.getD i 0 ≤ maxUpTo es j
  | 0, _, h => absurd h (Nat.not_lt_zero _)
  | j + 1, i, h => by
    rcases Nat.lt_succ_iff_lt_or_eq.mp h with h' | h'
    · exact le_trans (getD_le_maxUpTo es h') (le_max_left _ _)
    · subst h'; exact le_max_right _ _


lemma maxUpTo_succ (es : List ℚ) (j : Nat) :
    maxUpTo es (j + 1) = max (maxUpTo es j) (es.getD j 0) := rfl

lemma maxUpTo_attained (es : List ℚ) : ∀ {j : Nat}, 1 ≤ j →
    ∃ i, i < j ∧ es.getD i 0 = maxUpTo es j
  | 1, _ => ⟨0, Nat.zero_lt_one, by rw [maxUpTo_succ]; simp [maxUpTo]⟩
  | j + 2, _ => by
    obtain ⟨i, hi, hv⟩ := maxUpTo_attained es (Nat.le_add_left 1 j)
    rcases le_total (es.getD (j + 1) 0) (maxUpTo es (j + 1)) with h | h
    · exact ⟨i, Nat.lt_succ_of_lt hi, by rw [hv, maxUpTo_succ es (j + 1), max_eq_left h]⟩
    · exact ⟨j + 1, Nat.lt_succ_self _, by rw [maxUpTo_succ es (j + 1), max_eq_right h]⟩

lemma maxScanStep_inv (es : List ℚ) (j : Nat) :
    maxScanStep es
        ((List.range j).filter (fun i => es.getD i 0 == maxUpTo es j), maxUpTo es j) j
      = ((List.range (j + 1)).filter (fun i => es.getD i 0 == maxUpTo es (j + 1)),
         maxUpTo es (j + 1)) := by
  rcases lt_trichotomy (maxUpTo es j) (es.getD j 0) with hlt | heq | hgt
  · have hmax : maxUpTo es (j + 1) = es.getD j 0 := by
      rw [maxUpTo_succ, max_eq_right (le_of_lt hlt)]
    have hnil : (List.range j).filter (fun i => es.getD i 0 == maxUpTo es (j + 1)) = [] := by
      rw [List.filter_eq_nil_iff]
      intro a ha
      have hle : es.getD a 0 ≤ maxUpTo es j := getD_le_maxUpTo es (List.mem_range.mp ha)
      rw [hmax, beq_iff_eq]
      exact fun hEq => absurd (hEq ▸ hle) (not_le_of_lt hlt)
    have hone : ([j] : List Nat).filter (fun i => es.getD i 0 == maxUpTo es (j + 1)) = [j] := by
      rw [List.filter_eq_self]
      intro a ha
      rw [List.mem_singleton.mp ha, hmax, beq_iff_eq]
    show (if maxUpTo es j < es.getD j 0 then ([j], es.getD j 0)
      else if es.getD j 0 = maxUpTo es j then
        ((List.range j).filter (fun i => es.getD i 0 == maxUpTo es j) ++ [j], maxUpTo es j)
      else ((List.range j).filter (fun i => es.getD i 0 == maxUpTo es j), maxUpTo es j)) = _
    rw [if_pos hlt, List.range_succ, List.filter_append, hnil, hone, List.nil_append, hmax]
  · have hmax : maxUpTo es (j + 1) = maxUpTo es j := by
      rw [maxUpTo_succ, ← heq, max_self]
    have hone : ([j] : List Nat).filter (fun i => es.getD i 0 == maxUpTo es j) = [j] := by
      rw [List.filter_eq_self]
      intro a ha
      rw [List.mem_singleton.mp ha, beq_iff_eq]
      exact heq.symm
    show (if maxUpTo es j < es.getD j 0 then ([j], es.getD j 0)
      else if es.getD j 0 = maxUpTo es j then
        ((List.range j).filter (fun i => es.getD i 0 == maxUpTo es j) ++ [j], maxUpTo es j)
      else ((List.range j).filter (fun i => es.getD i 0 == maxUpTo es j), maxUpTo es j)) = _
    rw [if_neg (by rw [heq]; exact lt_irrefl _), if_pos heq.symm, List.range_succ,
      List.filter_append, hmax, hone]
  · have hmax : maxUpTo es (j + 1) = maxUpTo es j := by
      rw [maxUpTo_succ, max_eq_left (le_of_lt hgt)]
    have hnone : ([j] : List Nat).filter (fun i => es.getD i 0 == maxUpTo es j) = [] := by
      rw [List.filter_eq_nil_iff]
      intro a ha
      rw [List.mem_singleton.mp ha, beq_iff_eq]
      exact ne_of_lt hgt
    show (if maxUpTo es j < es.getD j 0 then ([j], es.getD j 0)
      else if es.getD j 0 = maxUpTo es j then
        ((List.range j).filter (fun i => es.getD i 0 == maxUpTo es j) ++ [j], maxUpTo es j)
      else ((List.range j).filter (fun i => es.getD i 0 == maxUpTo es j), maxUpTo es j)) = _
    rw [if_neg (lt_asymm hgt), if_neg (ne_of_lt hgt), List.range_succ, List.filter_append,
      hmax, hnone, List.append_nil]

lemma maxScanGo_inv (es : List ℚ) : ∀ (m j : Nat),
    maxScanGo es m j
        ((List.range j).filter (fun i => es.getD i 0 == maxUpTo es j), maxUpTo es j)
      = ((List.range (j + m)).filter (fun i => es.getD i 0 == maxUpTo es (j + m)),
         maxUpTo es (j + m))
  | 0, j => rfl
  | m + 1, j => by
    have hrec := maxScanGo_inv es m (j + 1)
    simp only [maxScanGo, maxScanStep_inv es j, hrec]
    rw [show j + 1 + m = j + (m + 1) from by omega]

lemma maxScan_eq (es : List ℚ) (h : 0 < es.length) :
    maxScan es
      = ((List.range es.length).filter (fun i => es.getD i 0 == maxUpTo es es.length),
         maxUpTo es es.length) := by
  have hinit : (([0] : List Nat), es.getD 0 0)
      = ((List.range 1).filter (fun i => es.getD i 0 == maxUpTo es 1), maxUpTo es 1) := by
    have h1 : maxUpTo es 1 = es.getD 0 0 := by rw [maxUpTo_succ]; simp [maxUpTo]
    simp [h1, List.range_succ]
  rw [maxScan, hinit, maxScanGo_inv es (es.length - 1) 1,
    show 1 + (es.length - 1) = es.length from by omega]

lemma partScanStep_inv (es : List ℚ) (j : Nat) (P : List Nat)
    (hP : P.Perm ((List.range j).filter (fun i => !(es.getD i 0 == maxUpTo es j)))) :
    ∃ Q : List Nat,
      Q.Perm ((List.range (j + 1)).filter (fun i => !(es.getD i 0 == maxUpTo es (j + 1)))) ∧
      partScanStep es
          (P, (List.range j).filter (fun i => es.getD i 0 == maxUpTo es j), maxUpTo es j) j
        = (Q, (List.range (j + 1)).filter (fun i => es.getD i 0 == maxUpTo es (j + 1)),
           maxUpTo es (j + 1)) := by
  have hshow : partScanStep es
      (P, (List.range j).filter (fun i => es.getD i 0 == maxUpTo es j), maxUpTo es j) j
      = (if maxUpTo es j < es.getD j 0 then
          (P ++ (List.range j).filter (fun i => es.getD i 0 == maxUpTo es j), [j], es.getD j 0)
        else if es.getD j 0 = maxUpTo es j then
          (P, (List.range j).filter (fun i => es.getD i 0 == maxUpTo es j) ++ [j], maxUpTo es j)
        else (P ++ [j], (List.range j).filter (fun i => es.getD i 0 == maxUpTo es j),
          maxUpTo es j)) := rfl
  rcases lt_trichotomy (maxUpTo es j) (es.getD j 0) with hlt | heq | hgt
  · have hmax : maxUpTo es (j + 1) = es.getD j 0 := by
      rw [maxUpTo_succ, max_eq_right (le_of_lt hlt)]
    have hAeq : (List.range (j + 1)).filter (fun i => es.getD i 0 == maxUpTo es (j + 1))
        = [j] := by
      rw [List.range_succ, List.filter_append]
      have hnil : (List.range j).filter (fun i => es.getD i 0 == maxUpTo es (j + 1)) = [] := by
        rw [List.filter_eq_nil_iff]
        intro a ha
        have hle : es.getD a 0 ≤ maxUpTo es j := getD_le_maxUpTo es (List.mem_range.mp ha)
        rw [hmax, beq_iff_eq]
        exact fun hEq => absurd (hEq ▸ hle) (not_le_of_lt hlt)
      have hone : ([j] : List Nat).filter (fun i => es.getD i 0 == maxUpTo es (j + 1)) = [j] := by
        rw [List.filter_eq_self]
        intro a ha
        rw [List.mem_singleton.mp ha, hmax, beq_iff_eq]
      rw [hnil, hone, List.nil_append]
    have htarget : (List.range (j + 1)).filter
        (fun i => !(es.getD i 0 == maxUpTo es (j + 1))) = List.range j := by
      rw [List.range_succ, List.filter_append]
      have h1 : (List.range j).filter (fun i => !(es.getD i 0 == maxUpTo es (j + 1)))
          = List.range j := by
        rw [List.filter_eq_self]
        intro a ha
        have hle : es.getD a 0 ≤ maxUpTo es j := getD_le_maxUpTo es (List.mem_range.mp ha)
        rw [hmax, Bool.not_eq_true', beq_eq_false_iff_ne]
        exact fun hEq => absurd (hEq ▸ hle) (not_le_of_lt hlt)
      have h2 : ([j] : List Nat).filter (fun i => !(es.getD i 0 == maxUpTo es (j + 1))) = [] := by
        rw [List.filter_eq_nil_iff]
        intro a ha
        rw [List.mem_singleton.mp ha, hmax]
        simp
      rw [h1, h2, List.append_nil]
    refine ⟨P ++ (List.range j).filter (fun i => es.getD i 0 == maxUpTo es j), ?_, ?_⟩
    · rw [htarget]
      exact ((hP.append_right _).trans List.perm_append_comm).trans
        (List.filter_append_perm _ _)
    · rw [hshow, if_pos hlt, hAeq, hmax]
  · have hmax : maxUpTo es (j + 1) = maxUpTo es j := by
      rw [maxUpTo_succ, ← heq, max_self]
    have hAeq : (List.range (j + 1)).filter (fun i => es.getD i 0 == maxUpTo es (j + 1))
        = (List.range j).filter (fun i => es.getD i 0 == maxUpTo es j) ++ [j] := by
      rw [List.range_succ, List.filter_append, hmax]
      have hone : ([j] : List Nat).filter (fun i => es.getD i 0 == maxUpTo es j) = [j] := by
        rw [List.filter_eq_self]
        intro a ha
        rw [List.mem_singleton.mp ha, beq_iff_eq]
        exact heq.symm
      rw [hone]
    have htarget : (List.range (j + 1)).filter
        (fun i => !(es.getD i 0 == maxUpTo es (j + 1)))
        = (List.range j).filter (fun i => !(es.getD i 0 == maxUpTo es j)) := by
      rw [List.range_succ, List.filter_append, hmax]
      have h2 : ([j] : List Nat).filter (fun i => !(es.getD i 0 == maxUpTo es j)) = [] := by
        rw [List.filter_eq_nil_iff]
        intro a ha
        rw [List.mem_singleton.mp ha]
        simp
        rw [← List.getD_eq_getElem?_getD]
        exact heq.symm
      rw [h2, List.append_nil]
    refine ⟨P, ?_, ?_⟩
    · rw [htarget]; exact hP
    · rw [hshow, if_neg (by rw [heq]; exact lt_irrefl _), if_pos heq.symm, hAeq, hmax]
  · have hmax : maxUpTo es (j + 1) = maxUpTo es j := by
      rw [maxUpTo_succ, max_eq_left (le_of_lt hgt)]
    have hAeq : (List.range (j + 1)).filter (fun i => es.getD i 0 == maxUpTo es (j + 1))
        = (List.range j).filter (fun i => es.getD i 0 == maxUpTo es j) := by
      rw [List.range_succ, List.filter_append, hmax]
      have hnone : ([j] : List Nat).filter (fun i => es.getD i 0 == maxUpTo es j) = [] := by
        rw [List.filter_eq_nil_iff]
        intro a ha
        rw [List.mem_singleton.mp ha, beq_iff_eq]
        exact ne_of_lt hgt
      rw [hnone, List.append_nil]
    have htarget : (List.range (j + 1)).filter
        (fun i => !(es.getD i 0 == maxUpTo es (j + 1)))
        = (List.range j).filter (fun i => !(es.getD i 0 == maxUpTo es j)) ++ [j] := by
      rw [List.range_succ, List.filter_append, hmax]
      have h2 : ([j] : List Nat).filter (fun i => !(es.getD i 0 == maxUpTo es j)) = [j] := by
        rw [List.filter_eq_self]
        intro a ha
        rw [List.mem_singleton.mp ha]
        simp
        rw [← List.getD_eq_getElem?_getD]
        exact ne_of_lt hgt
      rw [h2]
    refine ⟨P ++ [j], ?_, ?_⟩
    · rw [htarget]
      exact hP.append_right _
    · rw [hshow, if_neg (lt_asymm hgt), if_neg (ne_of_lt hgt), hAeq, hmax]

lemma partScanGo_inv (es : List ℚ) : ∀ (m j : Nat) (P : List Nat),
    P.Perm ((List.range j).filter (fun i => !(es.getD i 0 == maxUpTo es j))) →
    ∃ Q : List Nat,
      Q.Perm ((List.range (j + m)).filter (fun i => !(es.getD i 0 == maxUpTo es (j + m)))) ∧
      partScanGo es m j
          (P, (List.range j).filter (fun i => es.getD i 0 == maxUpTo es j), maxUpTo es j)
        = (Q, (List.range (j + m)).filter (fun i => es.getD i 0 == maxUpTo es (j + m)),
           maxUpTo es (j + m))
  | 0, j, P, hP => ⟨P, hP, rfl⟩
  | m + 1, j, P, hP => by
    obtain ⟨Q1, hQ1, hstep⟩ := partScanStep_inv es j P hP
    obtain ⟨Q, hQ, hrec⟩ := partScanGo_inv es m (j + 1) Q1 hQ1
    refine ⟨Q, ?_, ?_⟩
    · rw [show j + (m + 1) = j + 1 + m from by omega]
      exact hQ
    · show partScanGo es m (j + 1) (partScanStep es
        (P, (List.range j).filter (fun i => es.getD i 0 == maxUpTo es j), maxUpTo es j) j) = _
      rw [hstep, hrec, show j + 1 + m = j + (m + 1) from by omega]

lemma partScan_eq (es : List ℚ) (h : 0 < es.length) :
    ∃ Q : List Nat,
      Q.Perm ((List.range es.length).filter (fun i => !(es.getD i 0 == maxUpTo es es.length))) ∧
      partScan es
        = (Q, (List.range es.length).filter (fun i => es.getD i 0 == maxUpTo es es.length),
           maxUpTo es es.length) := by
  have h1 : maxUpTo es 1 = es.getD 0 0 := by rw [maxUpTo_succ]; simp [maxUpTo]
  have hinitA : (([0] : List Nat))
      = (List.range 1).filter (fun i => es.getD i 0 == maxUpTo es 1) := by
    simp [h1, List.range_succ]
  have hinitP : (([] : List Nat)).Perm
      ((List.range 1).filter (fun i => !(es.getD i 0 == maxUpTo es 1))) := by
    simp [h1, List.range_succ]
  obtain ⟨Q, hQ, hgo⟩ := partScanGo_inv es (es.length - 1) 1 [] hinitP
  refine ⟨Q, ?_, ?_⟩
  · rw [show es.length = 1 + (es.length - 1) from by omega]
    exact hQ
  · rw [partScan, hinitA, ← h1, hgo, show 1 + (es.length - 1) = es.length from by omega]

lemma estimateVec_length (b : EpsilonGreedyBandit) : (estimateVec b).length = b.n := by
  rw [estimateVec, List.length_map, List.length_range]

lemma estimateVec_getD (b : EpsilonGreedyBandit) {i : Nat} (h : i < b.n) :
    (estimateVec b).getD i 0 = b.estimateValD i := getD_map_range _ h

lemma collectEstimates_range (b : EpsilonGreedyBandit) (hlen : b.past_rewards.length = b.n) :
    collectEstimates b (List.range b.n) = some (estimateVec b) :=
  collectEstimates_eq b _ (fun i hi => by rw [hlen]; exact List.mem_range.mp hi)

lemma greedy_filter_eq (b : EpsilonGreedyBandit) :
    (List.range b.n).filter
        (fun i => (estimateVec b).getD i 0 == maxUpTo (estimateVec b) b.n)
      = greedySet b := by
  rw [greedySet]
  apply List.filter_congr
  intro i hi
  rw [estimateVec_getD b (List.mem_range.mp hi)]
  rfl

lemma nonGreedy_filter_eq (b : EpsilonGreedyBandit) :
    (List.range b.n).filter
        (fun i => !((estimateVec b).getD i 0 == maxUpTo (estimateVec b) b.n))
      = nonGreedySet b := by
  rw [nonGreedySet]
  apply List.filter_congr
  intro i hi
  rw [estimateVec_getD b (List.mem_range.mp hi)]
  rfl

lemma mem_greedySet (b : EpsilonGreedyBandit) {i : Nat} :
    i ∈ greedySet b ↔ i < b.n ∧ b.estimateValD i = maxEstimate b := by
  rw [greedySet, List.mem_filter, List.mem_range, beq_iff_eq]

lemma mem_nonGreedySet (b : EpsilonGreedyBandit) {i : Nat} :
    i ∈ nonGreedySet b ↔ i < b.n ∧ b.estimateValD i ≠ maxEstimate b := by
  rw [nonGreedySet, List.mem_filter, List.mem_range]
  simp

lemma greedySet_nodup (b : EpsilonGreedyBandit) : (greedySet b).Nodup :=
  List.Nodup.filter _ (List.nodup_range b.n)

lemma nonGreedySet_nodup (b : EpsilonGreedyBandit) : (nonGreedySet b).Nodup :=
  List.Nodup.filter _ (List.nodup_range b.n)

lemma estimateValD_le_maxEstimate (b : EpsilonGreedyBandit) {j : Nat} (hj : j < b.n) :
    b.estimateValD j ≤ maxEstimate b := by
  rw [← estimateVec_getD b hj]
  exact getD_le_maxUpTo _ hj

lemma maxEstimate_attained (b : EpsilonGreedyBandit) (hn : 0 < b.n) :
    ∃ i, i < b.n ∧ b.estimateValD i = maxEstimate b := by
  obtain ⟨i, hi, hv⟩ := maxUpTo_attained (estimateVec b) hn
  exact ⟨i, hi, by rw [← estimateVec_getD b hi]; exact hv⟩

lemma greedySet_ne_nil (b : EpsilonGreedyBandit) (hn : 0 < b.n) : greedySet b ≠ [] := by
  obtain ⟨i, hi, hv⟩ := maxEstimate_attained b hn
  have hmem : i ∈ greedySet b := (mem_greedySet b).mpr ⟨hi, hv⟩
  intro h
  rw [h] at hmem
  exact absurd hmem (List.not_mem_nil i)

lemma getD_mem (l : List Nat) {k : Nat} (h : k < l.length) : l.getD k 0 ∈ l := by
  rw [List.getD_eq_getElem l 0 h]
  exact List.getElem_mem h

lemma choose_action_greedy_branch (b : EpsilonGreedyBandit) (hn : 0 < b.n)
    (hlen : b.past_rewards.length = b.n) {x : ℚ} (hx : b.epsilon < x) (k : Nat) :
    b.choose_action x k = some ((greedySet b).getD (k % (greedySet b).length) 0) := by
  have hc := collectEstimates_range b hlen
  have hpos : 0 < (estimateVec b).length := by rw [estimateVec_length]; exact hn
  simp only [EpsilonGreedyBandit.choose_action, hc, if_neg (ne_of_gt hn), if_pos hx]
  rw [maxScan_eq (estimateVec b) hpos]
  rw [show ((List.range (estimateVec b).length).filter
      (fun i => (estimateVec b).getD i 0 == maxUpTo (estimateVec b) (estimateVec b).length),
      maxUpTo (estimateVec b) (estimateVec b).length).1
    = (List.range (estimateVec b).length).filter
      (fun i => (estimateVec b).getD i 0 == maxUpTo (estimateVec b) (estimateVec b).length)
    from rfl]
  rw [estimateVec_length, greedy_filter_eq]

lemma choose_action_explore_nonempty (b : EpsilonGreedyBandit) (hn : 0 < b.n)
    (hlen : b.past_rewards.length = b.n) {x : ℚ} (hx : ¬ b.epsilon < x)
    (hne : nonGreedySet b ≠ []) :
    ∃ L : List Nat, L.Perm (nonGreedySet b) ∧
      ∀ k : Nat, b.choose_action x k = some (L.getD (k % L.length) 0) := by
  have hc := collectEstimates_range b hlen
  have hpos : 0 < (estimateVec b).length := by rw [estimateVec_length]; exact hn
  obtain ⟨Q, hQ, hps⟩ := partScan_eq (estimateVec b) hpos
  rw [estimateVec_length, nonGreedy_filter_eq] at hQ
  have hQlen : 0 < Q.length := by
    rw [hQ.length_eq]
    exact List.length_pos.mpr hne
  refine ⟨Q, hQ, fun k => ?_⟩
  simp only [EpsilonGreedyBandit.choose_action, hc, if_neg (ne_of_gt hn), if_neg hx, hps]
  rw [if_pos hQlen]

lemma choose_action_explore_empty (b : EpsilonGreedyBandit) (hn : 0 < b.n)
    (hlen : b.past_rewards.length = b.n) {x : ℚ} (hx : ¬ b.epsilon < x)
    (he : nonGreedySet b = []) (k : Nat) :
    b.choose_action x k = some ((greedySet b).getD (k % (greedySet b).length) 0) := by
  have hc := collectEstimates_range b hlen
  have hpos : 0 < (estimateVec b).length := by rw [estimateVec_length]; exact hn
  obtain ⟨Q, hQ, hps⟩ := partScan_eq (estimateVec b) hpos
  rw [estimateVec_length, nonGreedy_filter_eq, he] at hQ
  have hQnil : Q = [] := hQ.eq_nil
  have hQlen : ¬ 0 < Q.length := by rw [hQnil]; simp
  simp only [EpsilonGreedyBandit.choose_action, hc, if_neg (ne_of_gt hn), if_neg hx, hps]
  rw [if_neg hQlen]
  rw [estimateVec_length, greedy_filter_eq]

lemma choose_action_lt (b : EpsilonGreedyBandit) (hn : 0 < b.n)
    (hlen : b.past_rewards.length = b.n) (x : ℚ) (k : Nat) :
    ∃ a : Nat, b.choose_action x k = some a ∧ a < b.n := by
  by_cases hx : b.epsilon < x
  · have h := choose_action_greedy_branch b hn hlen hx k
    have hglen : 0 < (greedySet b).length := List.length_pos.mpr (greedySet_ne_nil b hn)
    have hmem := getD_mem (greedySet b) (Nat.mod_lt k hglen)
    exact ⟨_, h, ((mem_greedySet b).mp hmem).1⟩
  · by_cases hne : nonGreedySet b = []
    · have h := choose_action_explore_empty b hn hlen hx hne k
      have hglen : 0 < (greedySet b).length := List.length_pos.mpr (greedySet_ne_nil b hn)
      have hmem := getD_mem (greedySet b) (Nat.mod_lt k hglen)
      exact ⟨_, h, ((mem_greedySet b).mp hmem).1⟩
    · obtain ⟨L, hL, hall⟩ := choose_action_explore_nonempty b hn hlen hx hne
      have hlpos : 0 < L.length := by
        rw [hL.length_eq]
        exact List.length_pos.mpr hne
      have hmem := getD_mem L (Nat.mod_lt k hlpos)
      have hmem2 : L.getD (k % L.length) 0 ∈ nonGreedySet b := hL.mem_iff.mp hmem
      exact ⟨_, hall k, ((mem_nonGreedySet b).mp hmem2).1⟩

lemma run_task_aux_spec (taskN : Nat) (q_star : List ℚ) (tape : Tape) :
    ∀ (m t : Nat) (b : EpsilonGreedyBandit) (acc : List ℚ),
      0 < b.n → b.past_rewards.length = b.n → b.n ≤ taskN →
      ∃ (rs : List ℚ) (b2 : EpsilonGreedyBandit) (acts : List Nat),
        run_task_aux taskN q_star tape m t b acc = some (acc ++ rs, b2) ∧
        rs.length = m ∧ acts.length = m ∧
        b2.n = b.n ∧ b2.past_rewards.length = b.past_rewards.length ∧
        b2.epsilon = b.epsilon ∧
        (∀ s, s < m → acts.getD s 0 < b.n) ∧
        (∀ s, s < m → rs.getD s 0
          = ((List.range taskN).map (fun j => q_star.getD j 0 + tape.zDraw (t + s) j)).getD
              (acts.getD s 0) 0) ∧
        b2.past_rewards = recordFold b.past_rewards (acts.zip rs)
  | 0, t, b, acc, hn, hlen, hbn => by
    refine ⟨[], b, [], ?_, rfl, rfl, rfl, rfl, rfl, ?_, ?_, rfl⟩
    · rw [List.append_nil]
      rfl
    · intro s hs
      exact absurd hs (Nat.not_lt_zero s)
    · intro s hs
      exact absurd hs (Nat.not_lt_zero s)
  | m + 1, t, b, acc, hn, hlen, hbn => by
    obtain ⟨a, hca, haln⟩ := choose_action_lt b hn hlen (tape.xDraw t) (tape.kDraw t)
    have hRlen : ((List.range taskN).map
        (fun j => q_star.getD j 0 + tape.zDraw t j)).length = taskN := by
      rw [List.length_map, List.length_range]
    have haR : a < ((List.range taskN).map
        (fun j => q_star.getD j 0 + tape.zDraw t j)).length := by
      rw [hRlen]; exact lt_of_lt_of_le haln hbn
    have hget : ((List.range taskN).map
        (fun j => q_star.getD j 0 + tape.zDraw t j)).get? a
        = some (((List.range taskN).map
            (fun j => q_star.getD j 0 + tape.zDraw t j)).getD a 0) := by
      rw [List.get?_eq_getElem?, List.getElem?_eq_getElem haR, List.getD_eq_getElem _ _ haR]
    have hapr : a < b.past_rewards.length := by rw [hlen]; exact haln
    have hrecv : b.receive_reward
        (((List.range taskN).map (fun j => q_star.getD j 0 + tape.zDraw t j)).getD a 0) a
        = some { b with past_rewards := b.past_rewards.set a (b.past_rewards.getD a []
            ++ [((List.range taskN).map
              (fun j => q_star.getD j 0 + tape.zDraw t j)).getD a 0]) } := by
      rw [EpsilonGreedyBandit.receive_reward, if_pos hapr]
    obtain ⟨rs2, b3, acts2, hrun, hrsl, hactl, hb3n, hb3l, hb3e, hacts, hrews, hfold⟩ :=
      run_task_aux_spec taskN q_star tape m (t + 1)
        { b with past_rewards := b.past_rewards.set a (b.past_rewards.getD a []
            ++ [((List.range taskN).map
              (fun j => q_star.getD j 0 + tape.zDraw t j)).getD a 0]) }
        (acc ++ [((List.range taskN).map
          (fun j => q_star.getD j 0 + tape.zDraw t j)).getD a 0])
        hn (by rw [List.length_set]; exact hlen) hbn
    refine ⟨((List.range taskN).map
        (fun j => q_star.getD j 0 + tape.zDraw t j)).getD a 0 :: rs2, b3, a :: acts2,
      ?_, ?_, ?_, hb3n, ?_, hb3e, ?_, ?_, ?_⟩
    · simp only [run_task_aux, hca, hget, hrecv]
      rw [hrun, ← List.append_cons]
    · rw [List.length_cons, hrsl]
    · rw [List.length_cons, hactl]
    · rw [hb3l, List.length_set]
    · intro s hs
      match s with
      | 0 => exact haln
      | s + 1 =>
        rw [List.getD_cons_succ]
        exact hacts s (by omega)
    · intro s hs
      match s with
      | 0 =>
        rw [List.getD_cons_zero, List.getD_cons_zero]
        rfl
      | s + 1 =>
        rw [List.getD_cons_succ, List.getD_cons_succ,
          show t + (s + 1) = t + 1 + s from by omega]
        exact hrews s (by omega)
    · rw [List.zip_cons_cons, hfold]
      rfl

lemma getD_replicate_nil (n i : Nat) : (List.replicate n ([] : List ℚ)).getD i [] = [] := by
  rcases lt_or_ge i n with h | h
  · rw [List.getD_eq_getElem _ _ (by rw [List.length_replicate]; exact h)]
    exact List.getElem_replicate _ _
  · rw [List.getD_eq_getElem?_getD, List.getElem?_eq_none (by rw [List.length_replicate]; exact h)]
    rfl

lemma getD_set_self (l : List (List ℚ)) (a : Nat) (v : List ℚ) (h : a < l.length) :
    (l.set a v).getD a [] = v := by
  rw [List.getD_eq_getElem?_getD, List.getElem?_set_self h]
  rfl

lemma getD_set_ne (l : List (List ℚ)) {a j : Nat} (v : List ℚ) (hne : j ≠ a) :
    (l.set a v).getD j [] = l.getD j [] := by
  rw [List.getD_eq_getElem?_getD, List.getElem?_set_ne (Ne.symm hne), ← List.getD_eq_getElem?_getD]

lemma filter_range_eq_singleton {p : Nat → Bool} : ∀ {n : Nat} {a : Nat}, a < n →
    (∀ i, i < n → (p i = true ↔ i = a)) → (List.range n).filter p = [a]
  | 0, a, ha, _ => absurd ha (Nat.not_lt_zero a)
  | n + 1, a, ha, hp => by
    rw [List.range_succ, List.filter_append]
    rcases Nat.lt_succ_iff_lt_or_eq.mp ha with h | h
    · have h1 : (List.range n).filter p = [a] :=
        filter_range_eq_singleton h (fun i hi => hp i (Nat.lt_succ_of_lt hi))
      have h2 : ([n] : List Nat).filter p = [] := by
        rw [List.filter_eq_nil_iff]
        intro c hc
        rw [List.mem_singleton.mp hc]
        intro hpn
        exact absurd ((hp n (Nat.lt_succ_self n)).mp hpn) (by omega)
      rw [h1, h2, List.append_nil]
    · have h1 : (List.range n).filter p = [] := by
        rw [List.filter_eq_nil_iff]
        intro c hc
        intro hpc
        have hcn := List.mem_range.mp hc
        have := (hp c (Nat.lt_succ_of_lt hcn)).mp hpc
        omega
      have h2 : ([n] : List Nat).filter p = [n] := by
        rw [List.filter_eq_self]
        intro c hc
        rw [List.mem_singleton.mp hc]
        exact (hp n (Nat.lt_succ_self n)).mpr h.symm
      rw [h1, h2, List.nil_append, h]

lemma run_task_aux_tape_q (taskN : Nat) (q_star : List ℚ) (q q2 : Nat → ℚ)
    (z : Nat → Nat → ℚ) (xs : Nat → ℚ) (ks : Nat → Nat) :
    ∀ (m t : Nat) (b : EpsilonGreedyBandit) (acc : List ℚ),
      run_task_aux taskN q_star ⟨q, z, xs, ks⟩ m t b acc
        = run_task_aux taskN q_star ⟨q2, z, xs, ks⟩ m t b acc
  | 0, t, b, acc => rfl
  | m + 1, t, b, acc => by
    simp only [run_task_aux]
    cases b.choose_action (xs t) (ks t) with
    | none => rfl
    | some a =>
      dsimp only
      cases ((List.range taskN).map (fun j => q_star.getD j 0 + z t j)).get? a with
      | none => rfl
      | some r =>
        dsimp only
        cases b.receive_reward r a with
        | none => rfl
        | some b2 =>
          exact run_task_aux_tape_q taskN q_star q q2 z xs ks m (t + 1) b2 (acc ++ [r])

/-! Claim theorems. -/

/-- C7: calculate_estimate is a pure function of the bandit state; for an
    in-range action it returns exactly 0 on an empty reward history and
    the arithmetic mean (sum divided by count) of the recorded rewards
    otherwise, and it fails (failed assert) for an out-of-range action. -/
theorem calculate_estimate_spec (b : EpsilonGreedyBandit) (a : Nat) :
    (b.past_rewards.length ≤ a → b.calculate_estimate a = none) ∧
    (a < b.past_rewards.length → b.past_rewards.getD a [] = [] →
      b.calculate_estimate a = some 0) ∧
    (a < b.past_rewards.length → b.past_rewards.getD a [] ≠ [] →
      b.calculate_estimate a
        = some ((b.past_rewards.getD a []).sum / ((b.past_rewards.getD a []).length : ℚ))) := by
  refine ⟨calculate_estimate_out_of_range b, ?_, ?_⟩
  · intro h he
    rw [calculate_estimate_in_range b h]
    simp only [EpsilonGreedyBandit.estimateValD]
    rw [he]
    norm_num
  · intro h hne
    rw [calculate_estimate_in_range b h]
    simp only [EpsilonGreedyBandit.estimateValD]
    rw [if_neg (by simpa using hne)]

/-- Concrete fixture for calculate_estimate: two arms, rewards [1, 3]
    recorded for arm 0 and none for arm 1. -/
def b7 : EpsilonGreedyBandit := ⟨2, [[1, 3], []], 0⟩

/-- Witness for C7: on the fixture, the estimate of arm 0 is 2 (the mean
    of 1 and 3), the estimate of arm 1 is exactly 0, and arm 2 fails. -/
theorem calculate_estimate_spec_witness :
    b7.calculate_estimate 0 = some 2 ∧ b7.calculate_estimate 1 = some 0 ∧
    b7.calculate_estimate 2 = none := by
  refine ⟨?_, ?_, ?_⟩
  · have h := (calculate_estimate_spec b7 0).2.2 (by norm_num [b7]) (by simp [b7])
    rw [h]
    norm_num [b7]
  · exact (calculate_estimate_spec b7 1).2.1 (by norm_num [b7]) (by norm_num [b7])
  · exact (calculate_estimate_spec b7 2).1 (by norm_num [b7])

/-- C9: the reward-history invariant.  Construction yields one empty
    history entry per arm; receive_reward is the only mutating operation
    and, when it succeeds, appends exactly one reward to the chosen
    action's entry, leaves every other entry and every other field
    unchanged and preserves the entry count; an out-of-range action
    panics, leaving no partial update.  No operation removes entries. -/
theorem bandit_history_invariant :
    (∀ (n : Nat) (e : ℚ), (EpsilonGreedyBandit.new n e).past_rewards.length = n ∧
      ∀ i : Nat, (EpsilonGreedyBandit.new n e).past_rewards.getD i [] = []) ∧
    (∀ (b b2 : EpsilonGreedyBandit) (r : ℚ) (a : Nat),
      b.receive_reward r a = some b2 →
      b2.n = b.n ∧ b2.epsilon = b.epsilon ∧
      b2.past_rewards.length = b.past_rewards.length ∧
      b2.past_rewards.getD a [] = b.past_rewards.getD a [] ++ [r] ∧
      ∀ j : Nat, j ≠ a → b2.past_rewards.getD j [] = b.past_rewards.getD j []) ∧
    (∀ (b : EpsilonGreedyBandit) (r : ℚ) (a : Nat),
      b.past_rewards.length ≤ a → b.receive_reward r a = none) := by
  refine ⟨?_, ?_, ?_⟩
  · intro n e
    exact ⟨by rw [EpsilonGreedyBandit.new, List.length_replicate],
      fun i => getD_replicate_nil n i⟩
  · intro b b2 r a h
    rw [EpsilonGreedyBandit.receive_reward] at h
    by_cases ha : a < b.past_rewards.length
    · rw [if_pos ha] at h
      have hb2 := (Option.some.injEq _ _).mp h
      rw [← hb2]
      exact ⟨rfl, rfl, List.length_set _ _ _,
        getD_set_self _ _ _ ha, fun j hj => getD_set_ne _ _ hj⟩
    · rw [if_neg ha] at h
      exact absurd h (by simp)
  · intro b r a h
    rw [EpsilonGreedyBandit.receive_reward, if_neg (by omega)]

/-- Witness for C9: a concrete receive_reward call appends 7 to arm 0 and
    leaves arm 1 alone; an out-of-range call fails. -/
theorem bandit_history_invariant_witness :
    ((⟨2, [[5], []], 0⟩ : EpsilonGreedyBandit).receive_reward 7 0
      = some ⟨2, [[5, 7], []], 0⟩) ∧
    (⟨2, [[5, 7], []], 0⟩ : EpsilonGreedyBandit).past_rewards.getD 0 []
      = (⟨2, [[5], []], 0⟩ : EpsilonGreedyBandit).past_rewards.getD 0 [] ++ [7] ∧
    (⟨2, [[5], []], 0⟩ : EpsilonGreedyBandit).receive_reward 7 5 = none := by
  have hr : (⟨2, [[5], []], 0⟩ : EpsilonGreedyBandit).receive_reward 7 0
      = some ⟨2, [[5, 7], []], 0⟩ := by
    norm_num [EpsilonGreedyBandit.receive_reward]
  exact ⟨hr, (bandit_history_invariant.2.1 _ _ _ _ hr).2.2.2.1,
    bandit_history_invariant.2.2 _ 7 5 (by norm_num)⟩

/-- C2 (amended): construction never fails.  For every arm count,
    including 0, and every epsilon (accepted as given, with no range
    check), new returns a bandit with that arm count, that epsilon and an
    empty reward history for each arm; the zero-arm precondition is
    enforced not at construction but by the assert at the start of
    choose_action, which panics on a zero-arm bandit. -/
theorem new_no_zero_arm_check (n : Nat) (e : ℚ) :
    (EpsilonGreedyBandit.new n e).n = n ∧
    (EpsilonGreedyBandit.new n e).epsilon = e ∧
    (EpsilonGreedyBandit.new n e).past_rewards.length = n ∧
    (∀ i : Nat, (EpsilonGreedyBandit.new n e).past_rewards.getD i [] = []) ∧
    (∀ (x : ℚ) (k : Nat), (EpsilonGreedyBandit.new 0 e).choose_action x k = none) :=
  ⟨rfl, rfl, by rw [EpsilonGreedyBandit.new, List.length_replicate],
    fun i => getD_replicate_nil n i, fun x k => rfl⟩

/-- Counterexample for C2 as stated: constructing a bandit with zero arms
    does not fail; it succeeds and returns the degenerate bandit with no
    history entries. -/
theorem new_zero_arms_succeeds :
    (EpsilonGreedyBandit.new 0 (1/2)).n = 0 ∧
    (EpsilonGreedyBandit.new 0 (1/2)).past_rewards = [] := ⟨rfl, rfl⟩

/-- C10: running a task for zero plays returns the empty reward sequence
    and leaves the bandit exactly as it was: the play loop never runs, so
    no action is chosen and no reward is recorded.  (In the source the
    true values are still drawn before the loop; the tape model makes
    that draw invisible here.) -/
theorem run_task_zero_plays (task : BanditTask) (b : EpsilonGreedyBandit) (tape : Tape) :
    task.run_task b 0 tape = some ([], b) := rfl

/-- C3: the asymmetric tie-break rule of choose_action.  The greedy set
    collects exactly the actions whose estimate equals the exact maximum
    of the estimate vector and the non-greedy set the others (first
    block: the maximum is attained and bounds every estimate, and both
    sets enumerate their actions without repetition).  If the uniform
    draw x exceeds epsilon the result is the k-th element of the greedy
    set for the uniform index draw k; if x is at most epsilon the result
    enumerates the non-greedy set (up to a fixed permutation, one outcome
    per index draw) when that set is non-empty, and falls back to the
    greedy set when every action is tied for the maximum. -/
theorem choose_action_tie_break (b : EpsilonGreedyBandit) (hn : 0 < b.n)
    (hlen : b.past_rewards.length = b.n) (x : ℚ) :
    ((∀ j, j < b.n → b.estimateValD j ≤ maxEstimate b) ∧
      (∃ j, j < b.n ∧ b.estimateValD j = maxEstimate b) ∧
      (greedySet b).Nodup ∧ (nonGreedySet b).Nodup ∧
      (∀ i, i ∈ greedySet b ↔ i < b.n ∧ b.estimateValD i = maxEstimate b) ∧
      (∀ i, i ∈ nonGreedySet b ↔ i < b.n ∧ b.estimateValD i ≠ maxEstimate b)) ∧
    (b.epsilon < x →
      ∀ k, k < (greedySet b).length → b.choose_action x k = some ((greedySet b).getD k 0)) ∧
    (x ≤ b.epsilon → nonGreedySet b ≠ [] →
      ∃ L : List Nat, L.Perm (nonGreedySet b) ∧
        ∀ k, k < L.length → b.choose_action x k = some (L.getD k 0)) ∧
    (x ≤ b.epsilon → nonGreedySet b = [] →
      ∀ k, k < (greedySet b).length → b.choose_action x k = some ((greedySet b).getD k 0)) := by
  refine ⟨⟨fun j hj => estimateValD_le_maxEstimate b hj, maxEstimate_attained b hn,
    greedySet_nodup b, nonGreedySet_nodup b,
    fun i => mem_greedySet b, fun i => mem_nonGreedySet b⟩, ?_, ?_, ?_⟩
  · intro hx k hk
    rw [choose_action_greedy_branch b hn hlen hx k, Nat.mod_eq_of_lt hk]
  · intro hx hne
    obtain ⟨L, hL, hall⟩ := choose_action_explore_nonempty b hn hlen (not_lt.mpr hx) hne
    exact ⟨L, hL, fun k hk => by rw [hall k, Nat.mod_eq_of_lt hk]⟩
  · intro hx he k hk
    rw [choose_action_explore_empty b hn hlen (not_lt.mpr hx) he k, Nat.mod_eq_of_lt hk]

/-- Three-arm fixture for the tie-break rule: arms 0 and 1 are tied for
    the maximum estimate 1, arm 2 has estimate 0, epsilon is one half. -/
def bW : EpsilonGreedyBandit := ⟨3, [[1], [1], []], 1/2⟩

/-- Witness for C3: on the fixture, a greedy draw (x = 1) returns the
    k-th tied maximal arm for k = 0 and k = 1, and an exploring draw
    (x = 0) returns the unique non-greedy arm 2. -/
theorem choose_action_tie_break_witness :
    bW.choose_action 1 0 = some 0 ∧ bW.choose_action 1 1 = some 1 ∧
    bW.choose_action 0 0 = some 2 := by
  have hg : greedySet bW = [0, 1] := by
    norm_num [greedySet, maxEstimate, estimateVec, EpsilonGreedyBandit.estimateValD, maxUpTo,
      List.range_succ, bW, List.filter,
      show ((0 : ℚ) == 1) = false from by rw [beq_eq_false_iff_ne]; norm_num]
  have hng : nonGreedySet bW = [2] := by
    norm_num [nonGreedySet, maxEstimate, estimateVec, EpsilonGreedyBandit.estimateValD, maxUpTo,
      List.range_succ, bW, List.filter,
      show ((0 : ℚ) == 1) = false from by rw [beq_eq_false_iff_ne]; norm_num]
  have h := choose_action_tie_break bW (by norm_num [bW]) (by norm_num [bW])
  refine ⟨?_, ?_, ?_⟩
  · have h0 := (h 1).2.1 (by norm_num [bW]) 0 (by rw [hg]; norm_num)
    rw [h0, hg]
    rfl
  · have h1 := (h 1).2.1 (by norm_num [bW]) 1 (by rw [hg]; norm_num)
    rw [h1, hg]
    rfl
  · obtain ⟨L, hL, hall⟩ := (h 0).2.2.1 (by norm_num [bW]) (by rw [hng]; simp)
    have hLs : L = [2] := List.perm_singleton.mp (hng ▸ hL)
    have h2 := hall 0 (by rw [hLs]; norm_num)
    rw [h2, hLs]
    rfl

/-- Two-arm fixture with epsilon zero: arm 0 has one recorded reward 1
    (estimate 1), arm 1 has no history (estimate 0). -/
def b6 : EpsilonGreedyBandit := ⟨2, [[1], []], 0⟩

/-- Counterexample for C6 as stated: with epsilon = 0 the uniform draw
    x = 0 lies in the unit interval but fails the strict test x > epsilon,
    so the bandit takes the explore branch and returns the non-greedy
    arm 1 even though arm 0 has the strictly higher estimate. -/
theorem eps_zero_draw_zero_explores :
    b6.epsilon = 0 ∧ ((0 : ℚ) ≤ 0 ∧ (0 : ℚ) < 1) ∧
    b6.estimateValD 1 < b6.estimateValD 0 ∧
    b6.choose_action 0 0 = some 1 := by
  refine ⟨rfl, ⟨le_refl 0, by norm_num⟩, ?_, ?_⟩
  · norm_num [EpsilonGreedyBandit.estimateValD, b6]
  · norm_num [EpsilonGreedyBandit.choose_action, collectEstimates,
      EpsilonGreedyBandit.calculate_estimate, partScan, partScanGo, partScanStep,
      maxScan, maxScanGo, maxScanStep, List.range_succ, b6]

/-- C6 (amended): with epsilon = 0 and one action of strictly maximal
    estimate, choose_action returns that action for every uniform draw x
    with 0 < x < 1 (indeed for every positive x) and every index draw;
    the single draw x = 0 is the only point of the unit interval where
    the explore branch fires instead. -/
theorem eps_zero_greedy (b : EpsilonGreedyBandit) (he : b.epsilon = 0) (hn : 0 < b.n)
    (hlen : b.past_rewards.length = b.n) (a : Nat) (ha : a < b.n)
    (hstrict : ∀ j, j < b.n → j ≠ a → b.estimateValD j < b.estimateValD a)
    {x : ℚ} (hx : 0 < x) (k : Nat) :
    b.choose_action x k = some a := by
  have hxe : b.epsilon < x := by rw [he]; exact hx
  have hmax : maxEstimate b = b.estimateValD a := by
    obtain ⟨i, hi, hv⟩ := maxEstimate_attained b hn
    by_cases hia : i = a
    · rw [← hv, hia]
    · have hlt := hstrict i hi hia
      rw [hv] at hlt
      have hle := estimateValD_le_maxEstimate b ha
      exact absurd (lt_of_le_of_lt hle hlt) (lt_irrefl _)
  have hg : greedySet b = [a] := by
    rw [greedySet]
    apply filter_range_eq_singleton ha
    intro i hi
    rw [beq_iff_eq, hmax]
    constructor
    · intro hv
      by_contra hia
      exact absurd hv (ne_of_lt (hstrict i hi hia))
    · intro hia
      rw [hia]
  rw [choose_action_greedy_branch b hn hlen hxe k, hg]
  rw [show ([a] : List Nat).length = 1 from rfl, Nat.mod_one]
  rfl

/-- Witness for C6 (amended): on the epsilon-zero fixture, a positive
    draw (x = one half) returns the strictly maximal arm 0, for an
    arbitrary index draw k = 5. -/
theorem eps_zero_greedy_witness : b6.choose_action (1/2) 5 = some 0 := by
  apply eps_zero_greedy b6 rfl (by norm_num [b6]) (by norm_num [b6]) 0 (by norm_num [b6])
  · intro j hj hne
    have hj2 : j < 2 := hj
    interval_cases j
    · exact absurd rfl hne
    · norm_num [EpsilonGreedyBandit.estimateValD, b6]
  · norm_num

/-- C1 (code bug): the driver divides the per-play accumulated rewards by
    num_plays, not by the number of tasks.  With two tasks whose reward
    sequences are both [1] over a single play, the aggregate is [2]
    (sum 2 divided by num_plays 1) instead of the cross-task mean [1]
    (sum 2 divided by the 2 tasks). -/
theorem mainAggregate_divides_by_num_plays :
    mainAggregate [[1], [1]] 1 = [2] ∧ ((1 : ℚ) + 1) / 2 = 1 ∧ (2 : ℚ) ≠ 1 := by
  refine ⟨?_, by norm_num, by norm_num⟩
  norm_num [mainAggregate, List.range_succ]

/-- Constant tape: all standard-normal draws are 0, the uniform draw is 1
    and the index draw is 0. -/
def tapeA : Tape := ⟨fun _ => 0, fun _ _ => 0, fun _ => 1, fun _ => 0⟩

/-- Tape equal to tapeA except that every true-value draw is 1. -/
def tapeB : Tape := ⟨fun _ => 1, fun _ _ => 0, fun _ => 1, fun _ => 0⟩

/-- Counterexample for C5 as stated: task construction consumes no
    randomness (the task value is the arm count and nothing else), and
    the same constructed task produces reward 0 or reward 1 depending on
    the true-value draws made during the run call, so the true values are
    not fixed at construction time. -/
theorem trueValues_not_drawn_at_construction :
    BanditTask.new 1 = { n := 1 } ∧
    (BanditTask.new 1).run_task (EpsilonGreedyBandit.new 1 0) 1 tapeA
      = some ([0], ⟨1, [[0]], 0⟩) ∧
    (BanditTask.new 1).run_task (EpsilonGreedyBandit.new 1 0) 1 tapeB
      = some ([1], ⟨1, [[1]], 0⟩) ∧
    (0 : ℚ) ≠ 1 := by
  refine ⟨rfl, ?_, ?_, by norm_num⟩ <;>
    norm_num [BanditTask.run_task, run_task_aux, BanditTask.new, EpsilonGreedyBandit.new,
      EpsilonGreedyBandit.choose_action, collectEstimates,
      EpsilonGreedyBandit.calculate_estimate, EpsilonGreedyBandit.receive_reward,
      maxScan, maxScanGo, maxScanStep, List.range_succ, tapeA, tapeB]

/-- C5 (amended): the true values are drawn by run, once, at its start:
    run_task reads the true-value draws only at the first armCount
    positions of the tape (its result is unchanged by any modification of
    the draws beyond them, and the same armCount draws govern every play
    of the run), while task construction is the identity on the arm
    count and consumes no draws at all. -/
theorem trueValues_drawn_by_run (task : BanditTask) (b : EpsilonGreedyBandit)
    (m : Nat) (q q2 : Nat → ℚ) (z : Nat → Nat → ℚ) (xs : Nat → ℚ) (ks : Nat → Nat)
    (hq : ∀ j, j < task.n → q j = q2 j) :
    task.run_task b m ⟨q, z, xs, ks⟩ = task.run_task b m ⟨q2, z, xs, ks⟩ ∧
    BanditTask.new task.n = task := by
  constructor
  · have hqs : (List.range task.n).map q = (List.range task.n).map q2 :=
      List.map_congr_left (fun j hj => hq j (List.mem_range.mp hj))
    rw [BanditTask.run_task, BanditTask.run_task, hqs]
    exact run_task_aux_tape_q task.n ((List.range task.n).map q2) q q2 z xs ks m 0 b []
  · rfl

/-- Witness for C5 (amended): changing the true-value draw of every arm
    beyond the single arm of a one-armed task does not change the run. -/
theorem trueValues_drawn_by_run_witness :
    (BanditTask.new 1).run_task (EpsilonGreedyBandit.new 1 0) 2
        ⟨fun _ => 5, fun _ _ => 0, fun _ => 1, fun _ => 0⟩
      = (BanditTask.new 1).run_task (EpsilonGreedyBandit.new 1 0) 2
        ⟨fun j => if j = 0 then 5 else 7, fun _ _ => 0, fun _ => 1, fun _ => 0⟩ :=
  (trueValues_drawn_by_run (BanditTask.new 1) (EpsilonGreedyBandit.new 1 0) 2
    (fun _ => 5) (fun j => if j = 0 then 5 else 7) (fun _ _ => 0) (fun _ => 1) (fun _ => 0)
    (fun j hj => by
      have hj1 : j < 1 := hj
      interval_cases j
      norm_num)).1

/-- Counterexample for C4 as stated: a bandit with 1 arm driven by a task
    with 2 arms is a mismatched pair, yet run_task runs to completion and
    returns a reward sequence instead of terminating on a violated
    precondition. -/
theorem mismatched_run_proceeds :
    (BanditTask.new 2).run_task (EpsilonGreedyBandit.new 1 0) 1 tapeA
      = some ([0], ⟨1, [[0]], 0⟩) := by
  norm_num [BanditTask.run_task, run_task_aux, BanditTask.new, EpsilonGreedyBandit.new,
    EpsilonGreedyBandit.choose_action, collectEstimates,
    EpsilonGreedyBandit.calculate_estimate, EpsilonGreedyBandit.receive_reward,
    maxScan, maxScanGo, maxScanStep, List.range_succ, tapeA]

/-- C4 (amended): run_task performs no arm-count check.  Whenever the
    bandit has at least one arm and at most as many arms as the task, a
    run over a mismatched pair silently proceeds to completion with the
    full number of plays; a bandit with more arms than the task can fail
    only during a play, through the out-of-bounds candidate access that
    occurs when it picks an action the task does not have (second
    conjunct: a 2-arm bandit whose greedy action is arm 1, driven by a
    1-arm task, panics mid-play rather than at entry). -/
theorem run_task_no_armcount_check :
    (∀ (task : BanditTask) (b : EpsilonGreedyBandit) (m : Nat) (tape : Tape),
      0 < b.n → b.past_rewards.length = b.n → b.n ≤ task.n →
      ∃ out : List ℚ × EpsilonGreedyBandit,
        task.run_task b m tape = some out ∧ out.1.length = m) ∧
    ((BanditTask.new 1).run_task (⟨2, [[0], [1]], 0⟩ : EpsilonGreedyBandit) 1 tapeA
      = none) := by
  constructor
  · intro task b m tape hn hlen hbn
    obtain ⟨rs, b2, acts, hrun, hrsl, _, _, _, _, _, _, _⟩ :=
      run_task_aux_spec task.n ((List.range task.n).map tape.qDraw) tape m 0 b []
        hn hlen hbn
    refine ⟨(rs, b2), ?_, hrsl⟩
    rw [BanditTask.run_task, hrun, List.nil_append]
  · norm_num [BanditTask.run_task, run_task_aux, BanditTask.new,
      EpsilonGreedyBandit.choose_action, collectEstimates,
      EpsilonGreedyBandit.calculate_estimate, EpsilonGreedyBandit.receive_reward,
      maxScan, maxScanGo, maxScanStep, List.range_succ, tapeA]

/-- Witness for C4 (amended): the mismatched pair of a 1-arm bandit and a
    2-arm task completes a 3-play run with 3 rewards. -/
theorem run_task_no_armcount_check_witness :
    ∃ out : List ℚ × EpsilonGreedyBandit,
      (BanditTask.new 2).run_task (EpsilonGreedyBandit.new 1 0) 3 tapeA = some out ∧
      out.1.length = 3 :=
  run_task_no_armcount_check.1 (BanditTask.new 2) (EpsilonGreedyBandit.new 1 0) 3 tapeA
    (by norm_num [EpsilonGreedyBandit.new]) (by norm_num [EpsilonGreedyBandit.new])
    (by norm_num [EpsilonGreedyBandit.new, BanditTask.new])

/-- C8: for a matched pair, run_task returns exactly numPlays rewards in
    play order.  On each play s a candidate vector holds one draw per arm
    of the task, the candidate of arm j being trueValues[j] plus a fresh
    per-play standard-normal draw (a normal sample with that mean and unit
    variance); the delivered reward is the entry of that vector at the
    action the bandit chose, and the final history is the initial history
    with exactly the delivered (action, reward) pairs appended in play
    order through the receive_reward update. -/
theorem run_task_spec (task : BanditTask) (b : EpsilonGreedyBandit) (num_plays : Nat)
    (tape : Tape) (hn : 0 < b.n) (hlen : b.past_rewards.length = b.n)
    (hmatch : b.n = task.n) :
    ∃ (rs : List ℚ) (b2 : EpsilonGreedyBandit) (acts : List Nat),
      task.run_task b num_plays tape = some (rs, b2) ∧
      rs.length = num_plays ∧ acts.length = num_plays ∧
      (∀ s, s < num_plays → acts.getD s 0 < task.n) ∧
      (∀ s, s < num_plays → rs.getD s 0
        = ((List.range task.n).map (fun j => tape.qDraw j + tape.zDraw s j)).getD
            (acts.getD s 0) 0) ∧
      b2.past_rewards = recordFold b.past_rewards (acts.zip rs) := by
  obtain ⟨rs, b2, acts, hrun, hrsl, hactl, _, _, _, hacts, hrews, hfold⟩ :=
    run_task_aux_spec task.n ((List.range task.n).map tape.qDraw) tape num_plays 0 b []
      hn hlen (le_of_eq hmatch)
  refine ⟨rs, b2, acts, ?_, hrsl, hactl, ?_, ?_, hfold⟩
  · rw [BanditTask.run_task, hrun, List.nil_append]
  · intro s hs
    rw [← hmatch]
    exact hacts s hs
  · intro s hs
    rw [hrews s hs]
    have hmap : (List.range task.n).map
        (fun j => ((List.range task.n).map tape.qDraw).getD j 0 + tape.zDraw (0 + s) j)
        = (List.range task.n).map (fun j => tape.qDraw j + tape.zDraw s j) := by
      apply List.map_congr_left
      intro j hj
      rw [getD_map_range tape.qDraw (List.mem_range.mp hj), Nat.zero_add]
    rw [hmap]

/-- Witness for C8: a 1-arm matched pair over 2 plays on the constant
    tape satisfies the run contract. -/
theorem run_task_spec_witness :
    ∃ (rs : List ℚ) (b2 : EpsilonGreedyBandit) (acts : List Nat),
      (BanditTask.new 1).run_task (EpsilonGreedyBandit.new 1 0) 2 tapeA = some (rs, b2) ∧
      rs.length = 2 ∧ acts.length = 2 ∧
      (∀ s, s < 2 → acts.getD s 0 < (BanditTask.new 1).n) ∧
      (∀ s, s < 2 → rs.getD s 0
        = ((List.range (BanditTask.new 1).n).map
            (fun j => tapeA.qDraw j + tapeA.zDraw s j)).getD (acts.getD s 0) 0) ∧
      b2.past_rewards = recordFold (EpsilonGreedyBandit.new 1 0).past_rewards (acts.zip rs) :=
  run_task_spec (BanditTask.new 1) (EpsilonGreedyBandit.new 1 0) 2 tapeA
    (by norm_num [EpsilonGreedyBandit.new]) (by norm_num [EpsilonGreedyBandit.new])
    (by norm_num [EpsilonGreedyBandit.new, BanditTask.new])
